import Mathlib

/-!
Verification development for the object-listing / stream-decoding /
record-splitting core of `tools.py` (quicko3).

The Python code is shallowly embedded:

* JSON values (`json.loads` results) are the inductive type `Json`;
  `json_loads` models `json.loads` applied to a single line (over the JSON
  grammar fragment without exponents and `\u` escapes, which no claim
  touches).  A parse failure (Python exception) is `none`.
* Python dicts are insertion-ordered association lists with distinct keys
  (`RecordMap`); `dict[k] = v` is `setKey` (update in place, else append),
  `k in d` is `hasKey`, `d[k]` is `dictGet`.
* generators are modelled as the list of values they yield; the abandonment
  behaviour of `get_jsons_from_object` is modelled by an explicit small-step
  run `runGen` driven by consumer actions (`next` / `close`).
* `datetime` values are wall-clock integers with an optional tz offset
  (`PyDateTime`); aware comparison compares `wall - offset`.
* `dateutil.parser.parse` on the `YYYY-MM-DD` digit groups extracted by the
  regex in `filter_prefixes` is modelled by `parseYMD` (calendar validation,
  with dateutil's month/day swap for month tokens above 12); a `ValueError`
  is `none`, and `filter_prefixes` returns `Except Unit _` so that a raised
  exception during iteration is `Except.error ()`.
-/

set_option linter.unusedVariables false
set_option linter.unnecessarySeqFocus false

/-- JSON values as produced by `json.loads`.  Numbers are kept exactly as a
decimal mantissa and scale: `num m s` denotes `m / 10 ^ s` (so the int `27`
is `num 27 0` and the float `0.0` is `num 0 1`). -/
inductive Json where
  | null : Json
  | bool (b : Bool) : Json
  | num (mantissa : Int) (scale : Nat) : Json
  | str (s : String) : Json
  | arr (elems : List Json) : Json
  | obj (fields : List (String × Json)) : Json

/-- Whitespace characters accepted between JSON tokens. -/
def isJsonWs (c : Char) : Bool :=
  c = ' ' || c = '\t' || c = '\n' || c = '\r'

/-- Drop leading JSON whitespace. -/
def skipWs : List Char → List Char
  | [] => []
  | c :: cs => if isJsonWs c then skipWs cs else c :: cs

/-- Translation of a JSON escape character (the fragment used here). -/
def escChar (c : Char) : Option Char :=
  if c = '"' then some '"'
  else if c = '\\' then some '\\'
  else if c = '/' then some '/'
  else if c = 'n' then some '\n'
  else if c = 't' then some '\t'
  else if c = 'r' then some '\r'
  else if c = 'b' then some (Char.ofNat 8)
  else if c = 'f' then some (Char.ofNat 12)
  else none

/-- Parse the remainder of a JSON string literal (after the opening quote),
returning its contents and the input after the closing quote. -/
def parseStringRest : List Char → Option (List Char × List Char)
  | [] => none
  | '"' :: rest => some ([], rest)
  | '\\' :: c :: rest =>
    match escChar c, parseStringRest rest with
    | some e, some (s, r) => some (e :: s, r)
    | _, _ => none
  | c :: rest =>
    match parseStringRest rest with
    | some (s, r) => some (c :: s, r)
    | none => none

/-- Longest leading run of decimal digits. -/
def takeDigits : List Char → List Char × List Char
  | [] => ([], [])
  | c :: cs =>
    if c.isDigit then
      let (ds, rest) := takeDigits cs
      (c :: ds, rest)
    else ([], c :: cs)

/-- Numeric value of a list of decimal digits. -/
def digitsToNat (ds : List Char) : Nat :=
  ds.foldl (fun acc c => 10 * acc + (c.toNat - 48)) 0

/-- Parse a JSON number (optional minus, integer part with the canonical
leading-zero restriction, optional fraction). -/
def parseNumber (cs : List Char) : Option (Json × List Char) :=
  let (neg, cs1) := match cs with
    | '-' :: r => (true, r)
    | _ => (false, cs)
  let (ds, cs2) := takeDigits cs1
  if ds.isEmpty then none
  else if ds.length > 1 && ds.headI = '0' then none
  else
    let mk : List Char → Nat → Json := fun allDigits scale =>
      let n : Int := Int.ofNat (digitsToNat allDigits)
      Json.num (if neg then -n else n) scale
    match cs2 with
    | '.' :: cs3 =>
      let (fs, cs4) := takeDigits cs3
      if fs.isEmpty then none
      else some (mk (ds ++ fs) fs.length, cs4)
    | _ => some (mk ds 0, cs2)

mutual

/-- Fuel-indexed parser for one JSON value; returns the value and the
unconsumed input. -/
def parseValue : Nat → List Char → Option (Json × List Char)
  | 0, _ => none
  | fuel + 1, cs =>
    match skipWs cs with
    | 'n' :: 'u' :: 'l' :: 'l' :: rest => some (Json.null, rest)
    | 't' :: 'r' :: 'u' :: 'e' :: rest => some (Json.bool true, rest)
    | 'f' :: 'a' :: 'l' :: 's' :: 'e' :: rest => some (Json.bool false, rest)
    | '"' :: rest =>
      match parseStringRest rest with
      | some (s, r) => some (Json.str (String.mk s), r)
      | none => none
    | '[' :: rest =>
      match parseElems fuel rest with
      | some (vs, r) => some (Json.arr vs, r)
      | none => none
    | '\x7b' :: rest =>
      match parseMembers fuel rest with
      | some (fs, r) => some (Json.obj fs, r)
      | none => none
    | cs' => parseNumber cs'

/-- Elements of a JSON array, after the opening bracket. -/
def parseElems : Nat → List Char → Option (List Json × List Char)
  | 0, _ => none
  | fuel + 1, cs =>
    match skipWs cs with
    | ']' :: rest => some ([], rest)
    | cs' =>
      match parseValue fuel cs' with
      | some (v, r) =>
        match skipWs r with
        | ',' :: r2 =>
          match parseElems fuel r2 with
          | some (vs, r3) => some (v :: vs, r3)
          | none => none
        | ']' :: r2 => some ([v], r2)
        | _ => none
      | none => none

/-- Members of a JSON object, after the opening brace. -/
def parseMembers : Nat → List Char → Option (List (String × Json) × List Char)
  | 0, _ => none
  | fuel + 1, cs =>
    match skipWs cs with
    | '\x7d' :: rest => some ([], rest)
    | '"' :: rest =>
      match parseStringRest rest with
      | some (k, r) =>
        match skipWs r with
        | ':' :: r2 =>
          match parseValue fuel r2 with
          | some (v, r3) =>
            match skipWs r3 with
            | ',' :: r4 =>
              match parseMembers fuel r4 with
              | some (fs, r5) => some ((String.mk k, v) :: fs, r5)
              | none => none
            | '\x7d' :: r4 => some ([(String.mk k, v)], r4)
            | _ => none
          | none => none
        | _ => none
      | none => none
    | _ => none

end

/-- Model of `json.loads` on one line: parse exactly one JSON value, allowing
only trailing whitespace; any failure (a Python exception) is `none`. -/
def json_loads (cs : List Char) : Option Json :=
  match parseValue (cs.length + 2) cs with
  | some (v, rest) => if (skipWs rest).isEmpty then some v else none
  | none => none

/-- The loop of `get_jsons_from_stream` (tools.py:94-98): for each line, try
`json.loads`; yield on success, silently skip on any exception. -/
def get_jsons_from_stream : List (List Char) → List Json
  | [] => []
  | line :: rest =>
    match json_loads line with
    | some v => v :: get_jsons_from_stream rest
    | none => get_jsons_from_stream rest

/-- `text.split('\n')` on the decompressed body (tools.py:90): split a
character list on newline; the result always has one chunk more than the
number of newlines, so text ending in a newline yields a trailing empty
chunk. -/
def splitLines : List Char → List (List Char)
  | [] => [[]]
  | c :: rest =>
    if c = '\n' then [] :: splitLines rest
    else
      match splitLines rest with
      | [] => [[c]]
      | l :: ls => (c :: l) :: ls

/-- The `.gz` branch of `get_jsons_from_stream`: the whole body is
decompressed up front (here: `text` is the decompressed UTF-8 text), split on
newline, and fed to the per-line loop. -/
def get_jsons_from_stream_gz (text : List Char) : List Json :=
  get_jsons_from_stream (splitLines text)

/-- Observable events of one run of the `get_jsons_from_object` generator
(tools.py:102-124): a value handed to the consumer, the `body.close()` on
line 124 executing, or Python raising `RuntimeError` because the generator
yielded after a `GeneratorExit` was swallowed by the bare `except`. -/
inductive GenEvent where
  | yielded (v : Json) : GenEvent
  | closedBody : GenEvent
  | runtimeError : GenEvent

/-- What the consumer does at each suspension point of the generator. -/
inductive ConsumerAction where
  | next : ConsumerAction
  | close : ConsumerAction

/-- The generator loop after a `GeneratorExit` has been raised at a `yield`
and swallowed by the bare `except:` (tools.py:117-121): the `for` loop keeps
running; if a later line parses, the generator reaches `yield` again, which
makes `close()` raise `RuntimeError` and leaves `body.close()` unexecuted;
if no later line parses, the loop ends and `body.close()` runs. -/
def stepExit : List (List Char) → List GenEvent
  | [] => [GenEvent.closedBody]
  | line :: rest =>
    match json_loads line with
    | none => stepExit rest
    | some _ => [GenEvent.runtimeError]

/-- The generator running with a `next()` in flight: skip unparseable lines;
on a parseable line deliver the value at `yield`, then act on the consumer's
next action (resume, close, or abandon without closing); when the lines are
exhausted, `body.close()` on line 124 executes. -/
def stepRun : List (List Char) → List ConsumerAction → List GenEvent
  | [], _ => [GenEvent.closedBody]
  | line :: rest, actions =>
    match json_loads line with
    | none => stepRun rest actions
    | some v =>
      GenEvent.yielded v ::
        match actions with
        | [] => []
        | ConsumerAction.next :: as => stepRun rest as
        | ConsumerAction.close :: _ => stepExit rest

/-- One run of the `get_jsons_from_object` generator over the decoded lines
of the body, driven by consumer actions. A generator only starts executing at
the first `next()`; `close()` before any `next()` never opens the body. -/
def runGen (lines : List (List Char)) (actions : List ConsumerAction) : List GenEvent :=
  match actions with
  | [] => []
  | ConsumerAction.next :: as => stepRun lines as
  | ConsumerAction.close :: _ => []

/-- A Python dict with string keys: an insertion-ordered association list
with pairwise-distinct keys. -/
abbrev RecordMap := List (String × Json)

/-- `d[k]` on a Python dict (first binding of the key). -/
def dictGet (m : RecordMap) (k : String) : Option Json :=
  match m with
  | [] => none
  | (a, v) :: rest => if k = a then some v else dictGet rest k

/-- `k in d` on a Python dict. -/
def hasKey (m : RecordMap) (k : String) : Bool :=
  (dictGet m k).isSome

/-- `k in ks` on a Python list of strings. -/
def keyMem (k : String) (ks : List String) : Bool :=
  match ks with
  | [] => false
  | a :: rest => if k = a then true else keyMem k rest

/-- Replace the binding of `k` by `v`, leaving other bindings alone. -/
def replaceEntry (k : String) (v : Json) (kv : String × Json) : String × Json :=
  if kv.1 = k then (k, v) else kv

/-- `d[k] = v` on a Python dict: overwrite in place if the key exists
(keeping its position), otherwise append the new binding at the end. -/
def setKey (m : RecordMap) (k : String) (v : Json) : RecordMap :=
  if hasKey m k then m.map (replaceEntry k v)
  else m ++ [(k, v)]

/-- `mes_keys` (tools.py:163). -/
def mes_keys : List String :=
  ["parameter", "value", "unit", "averagingPeriod", "date", "sourceName"]

/-- `stat_keys` (tools.py:164). -/
def stat_keys : List String :=
  ["location", "city", "coordinates", "country", "sourceName"]

/-- The default coordinates object `{'latitude': 0.0, 'longitude': 0.0}`. -/
def default_coordinates : Json :=
  Json.obj [("latitude", Json.num 0 1), ("longitude", Json.num 0 1)]

/-- `if ('coordinates' not in record): record['coordinates'] = ...`
(tools.py:154-155). -/
def coordsStmt1 (record : RecordMap) : RecordMap :=
  if hasKey record "coordinates" then record
  else setKey record "coordinates" default_coordinates

/-- `if record['coordinates'] is None: record['coordinates'] = ...`
(tools.py:157-158). -/
def coordsStmt2 (record : RecordMap) : RecordMap :=
  match dictGet record "coordinates" with
  | some Json.null => setKey record "coordinates" default_coordinates
  | _ => record

/-- `if 'averagingPeriod' not in record: record['averagingPeriod'] = ""`
(tools.py:160-161). -/
def apStmt (record : RecordMap) : RecordMap :=
  if hasKey record "averagingPeriod" then record
  else setKey record "averagingPeriod" (Json.str "")

/-- The three defaulting statements of `split_record` (tools.py:154-161) in
sequence.  They assign into the caller's dict, so this is also the contents
of the argument after `split_record` returns. -/
def default_record (record : RecordMap) : RecordMap :=
  apStmt (coordsStmt2 (coordsStmt1 record))

/-- `split_record` (tools.py:139-171): default missing/null `coordinates`
and missing `averagingPeriod`, then project the record onto the measurement
keys, the station keys, and everything else; returns
`(station, measurement, ext)` in the source's order. -/
def split_record (record : RecordMap) : RecordMap × RecordMap × RecordMap :=
  let r := default_record record
  let measurement := r.filter (fun kv => keyMem kv.1 mes_keys)
  let station := r.filter (fun kv => keyMem kv.1 stat_keys)
  let ext := r.filter (fun kv => !keyMem kv.1 (mes_keys ++ stat_keys))
  (station, measurement, ext)

/-- A Python `datetime`: a wall-clock value (totally ordered, in abstract
ticks) plus an optional tz offset; `tz = none` is a naive datetime. -/
structure PyDateTime where
  wall : Int
  tz : Option Int

/-- `pytz.utc.localize`: attach UTC (offset 0) to a naive datetime, keeping
the wall-clock value. -/
def utcLocalize (d : PyDateTime) : PyDateTime :=
  { wall := d.wall, tz := some 0 }

/-- The absolute instant of an aware datetime (what Python compares):
wall-clock minus offset. -/
def pyInstant (d : PyDateTime) : Int :=
  d.wall - d.tz.getD 0

/-- One entry of a `list_objects_v2` `Contents` list; `LastModified` as
returned by the listing API is always timezone-aware. -/
structure S3ObjectDesc where
  key : String
  size : Nat
  etag : String
  lastModifiedWall : Int
  lastModifiedTz : Int

/-- The `LastModified` datetime of a listed object. -/
def lastModifiedDT (x : S3ObjectDesc) : PyDateTime :=
  { wall := x.lastModifiedWall, tz := some x.lastModifiedTz }

/-- `filter_objects` (tools.py:66-74): localize naive bounds to UTC, then
keep the objects whose `LastModified` lies between the bounds (inclusive),
in input order. -/
def filter_objects (all_objects : List S3ObjectDesc)
    (start_date end_date : PyDateTime) : List S3ObjectDesc :=
  let s := if start_date.tz = none then utcLocalize start_date else start_date
  let e := if end_date.tz = none then utcLocalize end_date else end_date
  all_objects.filter fun x =>
    decide (pyInstant s ≤ pyInstant (lastModifiedDT x)) &&
      decide (pyInstant (lastModifiedDT x) ≤ pyInstant e)

/-- Does the input start with a path-delimited date segment
`/DDDD-DD-DD/` (the regex `/(\d{4}-\d{2}-\d{2})/` anchored here)?  Returns
the year, month, day digit groups as numbers. -/
def segHere : List Char → Option (Nat × Nat × Nat)
  | '/' :: y1 :: y2 :: y3 :: y4 :: '-' :: m1 :: m2 :: '-' :: d1 :: d2 :: '/' :: _ =>
    if y1.isDigit && y2.isDigit && y3.isDigit && y4.isDigit &&
        m1.isDigit && m2.isDigit && d1.isDigit && d2.isDigit then
      some (digitsToNat [y1, y2, y3, y4], digitsToNat [m1, m2], digitsToNat [d1, d2])
    else none
  | _ => none

/-- The group captured by `re.search(r'.*/(\d{4}-\d{2}-\d{2})/', x)`
(tools.py:78): the match starts at position 0 and the greedy `.*`
backtracks, so the captured group is the date segment at the greatest
starting position. -/
def lastDateSeg : List Char → Option (Nat × Nat × Nat)
  | [] => none
  | c :: rest =>
    match lastDateSeg rest with
    | some r => some r
    | none => segHere (c :: rest)

/-- Gregorian leap year. -/
def isLeapYear (y : Nat) : Bool :=
  (y % 4 = 0 && y % 100 ≠ 0) || y % 400 = 0

/-- Days in a month of a given year. -/
def daysInMonth (y m : Nat) : Nat :=
  if m = 2 then (if isLeapYear y then 29 else 28)
  else if m = 4 || m = 6 || m = 9 || m = 11 then 30
  else 31

/-- Is `(y, m, d)` a valid `datetime.date`? -/
def validYMD (y m d : Nat) : Bool :=
  1 ≤ y && 1 ≤ m && m ≤ 12 && 1 ≤ d && d ≤ daysInMonth y m

/-- Model of `dateutil.parser.parse` on the digit groups of a
`YYYY-MM-DD` token: accept a valid calendar date; if the month group is
above 12 but works as a day, dateutil swaps month and day; anything else
raises `ValueError` (`none` here). -/
def parseYMD (y m d : Nat) : Option (Nat × Nat × Nat) :=
  if validYMD y m d then some (y, m, d)
  else if 12 < m && validYMD y d m then some (y, d, m)
  else none

/-- A calendar date encoded so that `Nat` order is date order
(month and day groups are below 100). -/
def encodeDate (t : Nat × Nat × Nat) : Nat :=
  t.1 * 10000 + t.2.1 * 100 + t.2.2

/-- `filter_prefixes` (tools.py:77-79), with the bounds as encoded dates: a
prefix without a date segment is dropped silently; a prefix whose captured
segment fails to parse raises (`Except.error`) when the generator is
consumed; otherwise the prefix is kept exactly when the parsed date is
within the bounds, in input order. -/
def filter_prefixes (prefixes : List (List Char))
    (start_date end_date : Nat) : Except Unit (List (List Char)) :=
  match prefixes with
  | [] => Except.ok []
  | x :: rest =>
    match lastDateSeg x with
    | none => filter_prefixes rest start_date end_date
    | some seg =>
      match parseYMD seg.1 seg.2.1 seg.2.2 with
      | none => Except.error ()
      | some dte =>
        if start_date ≤ encodeDate dte && encodeDate dte ≤ end_date then
          match filter_prefixes rest start_date end_date with
          | Except.ok xs => Except.ok (x :: xs)
          | Except.error u => Except.error u
        else filter_prefixes rest start_date end_date

/-- One `list_objects_v2` response: `Contents` (`[]` models an absent key),
`CommonPrefixes` (already projected to the `Prefix` strings),
`IsTruncated`, and `NextContinuationToken`. -/
structure ListPage (α : Type) where
  contents : List α
  commonPrefixes : List String
  isTruncated : Bool
  nextToken : Nat

/-- The accumulation loop of `get_object_list` (tools.py:21-38), given the
first response: while the response is truncated, request the next page with
the response's continuation token and append its contents and prefixes.
`fuel` bounds the number of follow-up requests. -/
def gol_loop {α : Type} (client : Option Nat → ListPage α) :
    ListPage α → Nat → List α × List String
  | result, 0 => (result.contents, result.commonPrefixes)
  | result, fuel + 1 =>
    if result.isTruncated then
      let nextPage := client (some result.nextToken)
      let rec2 := gol_loop client nextPage fuel
      (result.contents ++ rec2.1, result.commonPrefixes ++ rec2.2)
    else (result.contents, result.commonPrefixes)

/-- `get_object_list` (tools.py:17-38): issue the first request with no
token, then loop via `gol_loop`. -/
def get_object_list {α : Type} (client : Option Nat → ListPage α)
    (fuel : Nat) : List α × List String :=
  gol_loop client (client none) fuel

/-- The client serves this page sequence: each page but the last is
truncated and its continuation token retrieves the next page; the last page
is not truncated. -/
def chainOK {α : Type} (client : Option Nat → ListPage α) :
    List (ListPage α) → Prop
  | [] => True
  | [p] => p.isTruncated = false
  | p :: q :: rest =>
    p.isTruncated = true ∧ client (some p.nextToken) = q ∧
      chainOK client (q :: rest)

/-- First page of the simulated 3-page listing. -/
def page1 : ListPage Nat :=
  { contents := [1, 2], commonPrefixes := ["a/"], isTruncated := true, nextToken := 0 }

/-- Second page of the simulated 3-page listing. -/
def page2 : ListPage Nat :=
  { contents := [3], commonPrefixes := ["b/"], isTruncated := true, nextToken := 1 }

/-- Third and final page of the simulated 3-page listing. -/
def page3 : ListPage Nat :=
  { contents := [4, 5], commonPrefixes := [], isTruncated := false, nextToken := 99 }

/-- A client serving the simulated 3-page listing. -/
def client3 : Option Nat → ListPage Nat
  | some 0 => page2
  | some 1 => page3
  | _ => page1

/-- Turn an explicitly null coordinates value into the default. -/
def nullToDefault (v : Json) : Json :=
  match v with
  | Json.null => default_coordinates
  | w => w

/-- The coordinates value after the defaulting steps of `split_record`:
the input's value, except that an absent or null input becomes
`default_coordinates`. -/
def coordsDefaulted (record : RecordMap) : Json :=
  match dictGet record "coordinates" with
  | none => default_coordinates
  | some v => nullToDefault v

/-- The averagingPeriod value after the defaulting steps of `split_record`:
the input's value, except that an absent input becomes the empty string. -/
def apDefaulted (record : RecordMap) : Json :=
  match dictGet record "averagingPeriod" with
  | none => Json.str ""
  | some v => v

/-- Either the regex finds no date segment in the input, or the captured
segment parses as a date without raising. -/
def segParses (x : List Char) : Bool :=
  match lastDateSeg x with
  | none => true
  | some seg => (parseYMD seg.1 seg.2.1 seg.2.2).isSome

/-- The retention condition of `filter_prefixes`: the input has a date
segment, its parse succeeds, and the parsed date is within the bounds. -/
def keepsPfx (start_date end_date : Nat) (x : List Char) : Bool :=
  match lastDateSeg x with
  | none => false
  | some seg =>
    match parseYMD seg.1 seg.2.1 seg.2.2 with
    | none => false
    | some dte => start_date ≤ encodeDate dte && encodeDate dte ≤ end_date

theorem dictGet_filter (m : RecordMap) (p : String → Bool) (k : String) :
    dictGet (m.filter fun kv => p kv.1) k = if p k then dictGet m k else none := by
  induction m with
  | nil => simp [dictGet]
  | cons kv rest ih =>
    obtain ⟨a, v⟩ := kv
    by_cases hk : k = a
    · subst hk
      cases hp : p k <;> simp [List.filter_cons, hp, dictGet, ih]
    · cases hp : p a <;> simp [List.filter_cons, hp, dictGet, hk, ih]

theorem dictGet_append (m m' : RecordMap) (k : String) :
    dictGet (m ++ m') k =
      match dictGet m k with
      | some v => some v
      | none => dictGet m' k := by
  induction m with
  | nil => simp [dictGet]
  | cons kv rest ih =>
    obtain ⟨a, v⟩ := kv
    by_cases hk : k = a <;> simp [dictGet, hk, ih]

theorem replaceEntry_hit (k : String) (v : Json) (a : String) (w : Json)
    (h : a = k) : replaceEntry k v (a, w) = (k, v) := by
  simp [replaceEntry, h]

theorem replaceEntry_miss (k : String) (v : Json) (a : String) (w : Json)
    (h : a ≠ k) : replaceEntry k v (a, w) = (a, w) := by
  simp [replaceEntry, h]

theorem dictGet_map_replace_self (m : RecordMap) (k : String) (v : Json)
    (h : hasKey m k = true) :
    dictGet (m.map (replaceEntry k v)) k = some v := by
  induction m with
  | nil => simp [hasKey, dictGet] at h
  | cons kv rest ih =>
    obtain ⟨a, w⟩ := kv
    by_cases ha : a = k
    · rw [List.map_cons, replaceEntry_hit k v a w ha]
      simp [dictGet]
    · have hk : ¬ k = a := fun hh => ha hh.symm
      simp only [hasKey, dictGet, if_neg hk] at h
      rw [List.map_cons, replaceEntry_miss k v a w ha]
      simp [dictGet, hk]
      exact ih h

theorem dictGet_map_replace_ne (m : RecordMap) (k : String) (v : Json)
    (k' : String) (h : k' ≠ k) :
    dictGet (m.map (replaceEntry k v)) k' = dictGet m k' := by
  induction m with
  | nil => simp
  | cons kv rest ih =>
    obtain ⟨a, w⟩ := kv
    by_cases ha : a = k
    · rw [List.map_cons, replaceEntry_hit k v a w ha]
      subst ha
      simp [dictGet, h, ih]
    · rw [List.map_cons, replaceEntry_miss k v a w ha]
      by_cases hk : k' = a <;> simp [dictGet, hk, ih]

theorem dictGet_setKey_self (m : RecordMap) (k : String) (v : Json) :
    dictGet (setKey m k v) k = some v := by
  unfold setKey
  cases h : hasKey m k with
  | true => simp [dictGet_map_replace_self m k v h]
  | false =>
    simp only [Bool.false_eq_true, if_false, dictGet_append]
    have hnone : dictGet m k = none := by
      cases hg : dictGet m k with
      | none => rfl
      | some w => rw [hasKey, hg] at h; cases h
    simp [hnone, dictGet]

theorem dictGet_setKey_ne (m : RecordMap) (k : String) (v : Json)
    (k' : String) (h : k' ≠ k) :
    dictGet (setKey m k v) k' = dictGet m k' := by
  unfold setKey
  cases hK : hasKey m k with
  | true => simp [dictGet_map_replace_ne m k v k' h]
  | false =>
    simp only [Bool.false_eq_true, if_false, dictGet_append]
    cases hg : dictGet m k' with
    | some w => rfl
    | none => simp [dictGet, h]

theorem keyMem_iff (k : String) (ks : List String) : keyMem k ks = true ↔ k ∈ ks := by
  induction ks with
  | nil => simp [keyMem]
  | cons a rest ih => by_cases h : k = a <;> simp [keyMem, h, ih]

theorem keyMem_append (k : String) (xs ys : List String) :
    keyMem k (xs ++ ys) = (keyMem k xs || keyMem k ys) := by
  induction xs with
  | nil => simp [keyMem]
  | cons a rest ih => by_cases h : k = a <;> simp [keyMem, h, ih]

theorem keyMem_both_eq_sourceName (k : String)
    (h1 : keyMem k mes_keys = true) (h2 : keyMem k stat_keys = true) :
    k = "sourceName" := by
  rw [keyMem_iff] at h1 h2
  fin_cases h1 <;> revert h2 <;> decide

theorem hasKey_filter (m : RecordMap) (p : String → Bool) (k : String) :
    hasKey (m.filter fun kv => p kv.1) k = (hasKey m k && p k) := by
  unfold hasKey
  rw [dictGet_filter]
  cases hp : p k <;> simp

theorem dictGet_coordsStmt1 (record : RecordMap) :
    dictGet (coordsStmt1 record) "coordinates" =
      some (match dictGet record "coordinates" with
            | none => default_coordinates
            | some v => v) := by
  unfold coordsStmt1
  cases hc : dictGet record "coordinates" with
  | none =>
    have hK : hasKey record "coordinates" = false := by simp [hasKey, hc]
    simp [hK, dictGet_setKey_self]
  | some v =>
    have hK : hasKey record "coordinates" = true := by simp [hasKey, hc]
    simp [hK, hc]

theorem dictGet_coordsStmt1_ne (record : RecordMap) (k : String)
    (h : k ≠ "coordinates") :
    dictGet (coordsStmt1 record) k = dictGet record k := by
  unfold coordsStmt1
  cases hK : hasKey record "coordinates" with
  | true => simp
  | false => simp [dictGet_setKey_ne _ _ _ _ h]

theorem dictGet_coordsStmt2 (record : RecordMap) (v : Json)
    (h : dictGet record "coordinates" = some v) :
    dictGet (coordsStmt2 record) "coordinates" = some (nullToDefault v) := by
  unfold coordsStmt2
  cases hc : dictGet record "coordinates" with
  | none => rw [h] at hc; cases hc
  | some w =>
    rw [h] at hc
    obtain rfl : w = v := (Option.some.inj hc).symm
    cases w <;> simp [nullToDefault, dictGet_setKey_self] <;> exact h

theorem dictGet_coordsStmt2_ne (record : RecordMap) (k : String)
    (h : k ≠ "coordinates") :
    dictGet (coordsStmt2 record) k = dictGet record k := by
  unfold coordsStmt2
  cases hc : dictGet record "coordinates" with
  | none => simp
  | some v =>
    cases v <;> simp [dictGet_setKey_ne _ _ _ _ h]

theorem dictGet_apStmt (record : RecordMap) :
    dictGet (apStmt record) "averagingPeriod" =
      some (match dictGet record "averagingPeriod" with
            | none => Json.str ""
            | some v => v) := by
  unfold apStmt
  cases hc : dictGet record "averagingPeriod" with
  | none =>
    have hK : hasKey record "averagingPeriod" = false := by simp [hasKey, hc]
    simp [hK, dictGet_setKey_self]
  | some v =>
    have hK : hasKey record "averagingPeriod" = true := by simp [hasKey, hc]
    simp [hK, hc]

theorem dictGet_apStmt_ne (record : RecordMap) (k : String)
    (h : k ≠ "averagingPeriod") :
    dictGet (apStmt record) k = dictGet record k := by
  unfold apStmt
  cases hK : hasKey record "averagingPeriod" with
  | true => simp
  | false => simp [dictGet_setKey_ne _ _ _ _ h]

theorem dictGet_default_record_coordinates (record : RecordMap) :
    dictGet (default_record record) "coordinates" = some (coordsDefaulted record) := by
  have hne : ("coordinates" : String) ≠ "averagingPeriod" := by decide
  unfold default_record coordsDefaulted
  rw [dictGet_apStmt_ne _ _ hne]
  cases hc : dictGet record "coordinates" with
  | none =>
    rw [dictGet_coordsStmt2 _ default_coordinates
      (by rw [dictGet_coordsStmt1, hc])]
    rfl
  | some v =>
    rw [dictGet_coordsStmt2 _ v (by rw [dictGet_coordsStmt1, hc])]

theorem dictGet_default_record_ap (record : RecordMap) :
    dictGet (default_record record) "averagingPeriod" = some (apDefaulted record) := by
  have h1 : ("averagingPeriod" : String) ≠ "coordinates" := by decide
  unfold default_record apDefaulted
  rw [dictGet_apStmt, dictGet_coordsStmt2_ne _ _ h1, dictGet_coordsStmt1_ne _ _ h1]

theorem dictGet_default_record_other (record : RecordMap) (k : String)
    (h1 : k ≠ "coordinates") (h2 : k ≠ "averagingPeriod") :
    dictGet (default_record record) k = dictGet record k := by
  unfold default_record
  rw [dictGet_apStmt_ne _ _ h2, dictGet_coordsStmt2_ne _ _ h1,
    dictGet_coordsStmt1_ne _ _ h1]

theorem hasKey_default_record (record : RecordMap) (k : String) :
    hasKey (default_record record) k =
      (if k = "coordinates" then true
       else if k = "averagingPeriod" then true
       else hasKey record k) := by
  by_cases h1 : k = "coordinates"
  · subst h1; simp [hasKey, dictGet_default_record_coordinates]
  · by_cases h2 : k = "averagingPeriod"
    · subst h2; simp [hasKey, dictGet_default_record_ap, h1]
    · simp [hasKey, dictGet_default_record_other record k h1 h2, h1, h2]

theorem split_record_station (record : RecordMap) :
    (split_record record).1 =
      (default_record record).filter (fun kv => keyMem kv.1 stat_keys) := rfl

theorem split_record_measurement (record : RecordMap) :
    (split_record record).2.1 =
      (default_record record).filter (fun kv => keyMem kv.1 mes_keys) := rfl

theorem split_record_ext (record : RecordMap) :
    (split_record record).2.2 =
      (default_record record).filter
        (fun kv => !keyMem kv.1 (mes_keys ++ stat_keys)) := rfl

theorem hasKey_station (record : RecordMap) (k : String) :
    hasKey (split_record record).1 k =
      (hasKey (default_record record) k && keyMem k stat_keys) := by
  have h : hasKey ((default_record record).filter fun kv => keyMem kv.1 stat_keys) k =
      (hasKey (default_record record) k && keyMem k stat_keys) :=
    hasKey_filter (default_record record) (fun s => keyMem s stat_keys) k
  rw [split_record_station]
  exact h

theorem hasKey_measurement (record : RecordMap) (k : String) :
    hasKey (split_record record).2.1 k =
      (hasKey (default_record record) k && keyMem k mes_keys) := by
  have h : hasKey ((default_record record).filter fun kv => keyMem kv.1 mes_keys) k =
      (hasKey (default_record record) k && keyMem k mes_keys) :=
    hasKey_filter (default_record record) (fun s => keyMem s mes_keys) k
  rw [split_record_measurement]
  exact h

theorem hasKey_ext (record : RecordMap) (k : String) :
    hasKey (split_record record).2.2 k =
      (hasKey (default_record record) k && !keyMem k (mes_keys ++ stat_keys)) := by
  have h : hasKey
      ((default_record record).filter fun kv => !keyMem kv.1 (mes_keys ++ stat_keys)) k =
      (hasKey (default_record record) k && !keyMem k (mes_keys ++ stat_keys)) :=
    hasKey_filter (default_record record) (fun s => !keyMem s (mes_keys ++ stat_keys)) k
  rw [split_record_ext]
  exact h

theorem coordsDefaulted_ne_null (record : RecordMap) :
    coordsDefaulted record ≠ Json.null := by
  unfold coordsDefaulted
  cases hc : dictGet record "coordinates" with
  | none => simp [default_coordinates]
  | some v => cases v <;> simp [nullToDefault, default_coordinates]

theorem dictGet_station_coordinates (record : RecordMap) :
    dictGet (split_record record).1 "coordinates" = some (coordsDefaulted record) := by
  have h : dictGet ((default_record record).filter fun kv => keyMem kv.1 stat_keys)
        "coordinates" =
      if keyMem "coordinates" stat_keys then
        dictGet (default_record record) "coordinates"
      else none :=
    dictGet_filter (default_record record) (fun s => keyMem s stat_keys) "coordinates"
  rw [split_record_station, h]
  have h1 : keyMem "coordinates" stat_keys = true := by decide
  simp only [h1, if_true]
  exact dictGet_default_record_coordinates record

theorem dictGet_measurement_ap (record : RecordMap) :
    dictGet (split_record record).2.1 "averagingPeriod" = some (apDefaulted record) := by
  have h : dictGet ((default_record record).filter fun kv => keyMem kv.1 mes_keys)
        "averagingPeriod" =
      if keyMem "averagingPeriod" mes_keys then
        dictGet (default_record record) "averagingPeriod"
      else none :=
    dictGet_filter (default_record record) (fun s => keyMem s mes_keys) "averagingPeriod"
  rw [split_record_measurement, h]
  have h1 : keyMem "averagingPeriod" mes_keys = true := by decide
  simp only [h1, if_true]
  exact dictGet_default_record_ap record

/-- C1: `split_record` never fails and, for every input record, the output
StationRecord's coordinates entry is present and non-null (equal to
`{latitude: 0.0, longitude: 0.0}` whenever the input's coordinates entry is
absent or explicitly null), and the output MeasurementRecord's
averagingPeriod entry is present (the empty string whenever absent from the
input). -/
theorem split_record_total_defaults (record : RecordMap) :
    (∃ c, dictGet (split_record record).1 "coordinates" = some c ∧ c ≠ Json.null)
  ∧ (dictGet (split_record record).2.1 "averagingPeriod").isSome = true
  ∧ ((dictGet record "coordinates" = none ∨
      dictGet record "coordinates" = some Json.null) →
      dictGet (split_record record).1 "coordinates" = some default_coordinates)
  ∧ (dictGet record "averagingPeriod" = none →
      dictGet (split_record record).2.1 "averagingPeriod" = some (Json.str "")) := by
  refine ⟨⟨coordsDefaulted record, dictGet_station_coordinates record,
      coordsDefaulted_ne_null record⟩,
    by rw [dictGet_measurement_ap]; rfl, ?_, ?_⟩
  · intro h
    rw [dictGet_station_coordinates]
    unfold coordsDefaulted
    rcases h with h | h <;> rw [h] <;> rfl
  · intro h
    rw [dictGet_measurement_ap]
    unfold apDefaulted
    rw [h]

/-- Witness for C1 at the empty record. -/
theorem split_record_total_defaults_witness :
    dictGet (split_record ([] : RecordMap)).1 "coordinates" = some default_coordinates
  ∧ dictGet (split_record ([] : RecordMap)).2.1 "averagingPeriod" = some (Json.str "") :=
  ⟨(split_record_total_defaults []).2.2.1 (Or.inl rfl),
   (split_record_total_defaults []).2.2.2 rfl⟩

/-- C2: the key sets of the three outputs of `split_record` partition the
key set of the (coordinates/averagingPeriod-defaulted) record, which is also
the argument's key set after the call: the three output key sets cover
exactly that key set, an input key always survives the defaulting, any key
other than sourceName is in at most one output, and sourceName, when
present, is in both StationRecord and MeasurementRecord and not in
ExtensionRecord. -/
theorem split_record_key_partition (record : RecordMap) (k : String) :
    (hasKey (default_record record) k =
      (hasKey (split_record record).1 k || hasKey (split_record record).2.1 k ||
        hasKey (split_record record).2.2 k))
  ∧ (hasKey record k = true → hasKey (default_record record) k = true)
  ∧ (k ≠ "sourceName" →
      (hasKey (split_record record).1 k && hasKey (split_record record).2.1 k) = false
    ∧ (hasKey (split_record record).1 k && hasKey (split_record record).2.2 k) = false
    ∧ (hasKey (split_record record).2.1 k && hasKey (split_record record).2.2 k) = false)
  ∧ (hasKey (default_record record) "sourceName" = true →
      hasKey (split_record record).1 "sourceName" = true
    ∧ hasKey (split_record record).2.1 "sourceName" = true
    ∧ hasKey (split_record record).2.2 "sourceName" = false) := by
  refine ⟨?_, ?_, ?_, ?_⟩
  · rw [hasKey_station, hasKey_measurement, hasKey_ext, keyMem_append]
    cases hr : hasKey (default_record record) k <;>
      cases hs : keyMem k stat_keys <;>
        cases hm : keyMem k mes_keys <;> simp
  · intro h
    rw [hasKey_default_record]
    by_cases h1 : k = "coordinates" <;> by_cases h2 : k = "averagingPeriod" <;>
      simp [h1, h2, h]
  · intro hk
    rw [hasKey_station, hasKey_measurement, hasKey_ext, keyMem_append]
    cases hr : hasKey (default_record record) k <;>
      cases hs : keyMem k stat_keys <;>
        cases hm : keyMem k mes_keys <;> simp
    exact absurd (keyMem_both_eq_sourceName k hm hs) hk
  · intro h
    rw [hasKey_station, hasKey_measurement, hasKey_ext, keyMem_append, h]
    have h1 : keyMem "sourceName" stat_keys = true := by decide
    have h2 : keyMem "sourceName" mes_keys = true := by decide
    simp [h1, h2]

/-- Witness for C2: a record with `sourceName` and an unrecognized key. -/
theorem split_record_key_partition_witness :
    (hasKey (split_record [("sourceName", Json.str "s"), ("mobile", Json.bool false)]).1 "mobile" &&
      hasKey (split_record [("sourceName", Json.str "s"), ("mobile", Json.bool false)]).2.1 "mobile") = false
  ∧ hasKey (split_record [("sourceName", Json.str "s"), ("mobile", Json.bool false)]).1 "sourceName" = true
  ∧ hasKey (split_record [("sourceName", Json.str "s"), ("mobile", Json.bool false)]).2.1 "sourceName" = true
  ∧ hasKey (split_record [("sourceName", Json.str "s"), ("mobile", Json.bool false)]).2.2 "sourceName" = false := by
  have hA :=
    (split_record_key_partition
      [("sourceName", Json.str "s"), ("mobile", Json.bool false)] "mobile").2.2.1
      (by decide)
  have hB :=
    (split_record_key_partition
      [("sourceName", Json.str "s"), ("mobile", Json.bool false)] "sourceName").2.2.2
      (by decide)
  exact ⟨hA.1, hB.1, hB.2.1, hB.2.2⟩

/-- C9: `split_record` synthesizes only the coordinates and averagingPeriod
fields: any other key absent from the input is also absent from all three
outputs. -/
theorem split_record_no_extra_fields (record : RecordMap) (k : String)
    (h1 : k ≠ "coordinates") (h2 : k ≠ "averagingPeriod")
    (h3 : hasKey record k = false) :
    hasKey (split_record record).1 k = false
  ∧ hasKey (split_record record).2.1 k = false
  ∧ hasKey (split_record record).2.2 k = false := by
  have hd : hasKey (default_record record) k = false := by
    unfold hasKey at h3 ⊢
    rw [dictGet_default_record_other record k h1 h2]
    exact h3
  rw [hasKey_station, hasKey_measurement, hasKey_ext, hd]
  simp

/-- Witness for C9: a record without `parameter` yields a MeasurementRecord
without `parameter`. -/
theorem split_record_no_extra_fields_witness :
    hasKey (split_record [("value", Json.num 27 0)]).2.1 "parameter" = false :=
  (split_record_no_extra_fields [("value", Json.num 27 0)] "parameter"
    (by decide) (by decide) rfl).2.1

/-- Counterexample to C4 as stated: `split_record` mutates its argument.
After `split_record({})` returns, the (initially empty) input dict holds the
defaulted coordinates and averagingPeriod keys, so it does not contain
exactly the same keys as before the call. -/
theorem split_record_not_pure :
    default_record ([] : RecordMap) ≠ ([] : RecordMap) := by
  intro h
  exact absurd (congrArg List.length h) (by decide)

/-- C4 (amended): `split_record`'s only side effect on its argument is the
defaulting itself: every key other than coordinates and averagingPeriod
keeps its binding, and an input that already has a non-null coordinates
value and an averagingPeriod key is left entirely unchanged. -/
theorem split_record_argument_mutation (record : RecordMap) :
    (∀ k, k ≠ "coordinates" → k ≠ "averagingPeriod" →
      dictGet (default_record record) k = dictGet record k)
  ∧ (∀ c, dictGet record "coordinates" = some c → c ≠ Json.null →
      hasKey record "averagingPeriod" = true → default_record record = record) := by
  constructor
  · exact fun k h1 h2 => dictGet_default_record_other record k h1 h2
  · intro c hc hcn hap
    have h1 : coordsStmt1 record = record := by
      have hK : hasKey record "coordinates" = true := by simp [hasKey, hc]
      unfold coordsStmt1
      simp [hK]
    have h2 : coordsStmt2 record = record := by
      unfold coordsStmt2
      cases hc2 : dictGet record "coordinates" with
      | none => rfl
      | some w =>
        rw [hc] at hc2
        obtain rfl : w = c := (Option.some.inj hc2).symm
        cases w with
        | null => exact absurd rfl hcn
        | bool b => rfl
        | num n s => rfl
        | str s => rfl
        | arr xs => rfl
        | obj fs => rfl
    have h3 : apStmt record = record := by
      unfold apStmt
      simp [hap]
    unfold default_record
    rw [h1, h2, h3]

/-- Witness for the amended C4: an unrelated key is untouched, and a record
with non-null coordinates and an averagingPeriod is unchanged. -/
theorem split_record_argument_mutation_witness :
    dictGet (default_record [("coordinates", Json.bool true), ("value", Json.num 1 0)]) "value"
      = some (Json.num 1 0)
  ∧ default_record [("coordinates", Json.bool true), ("averagingPeriod", Json.str "x")]
      = [("coordinates", Json.bool true), ("averagingPeriod", Json.str "x")] := by
  constructor
  · rw [(split_record_argument_mutation
      [("coordinates", Json.bool true), ("value", Json.num 1 0)]).1 "value"
      (by decide) (by decide)]
    rfl
  · exact (split_record_argument_mutation
      [("coordinates", Json.bool true), ("averagingPeriod", Json.str "x")]).2
      (Json.bool true) rfl (by simp) rfl

theorem get_jsons_from_stream_filterMap (lines : List (List Char)) :
    get_jsons_from_stream lines = lines.filterMap json_loads := by
  induction lines with
  | nil => rfl
  | cons l rest ih =>
    cases h : json_loads l <;>
      simp [get_jsons_from_stream, h, List.filterMap_cons, ih]

/-- C6: `get_jsons_from_stream` yields exactly the values of the lines that
parse as standalone JSON, in original line order, silently skipping each
line that fails to parse; in particular a stream with one malformed line
between two well-formed lines yields exactly the two well-formed values in
order. -/
theorem get_jsons_from_stream_spec :
    (∀ lines : List (List Char),
      get_jsons_from_stream lines = lines.filterMap json_loads)
  ∧ get_jsons_from_stream
      ["\x7b\"parameter\": \"pm25\", \"value\": 27\x7d".toList,
       "\x7bmalformed".toList,
       "[1, 2]".toList]
      = [Json.obj [("parameter", Json.str "pm25"), ("value", Json.num 27 0)],
         Json.arr [Json.num 1 0, Json.num 2 0]] :=
  ⟨get_jsons_from_stream_filterMap, rfl⟩

theorem splitLines_ne_nil (cs : List Char) : splitLines cs ≠ [] := by
  induction cs with
  | nil => simp [splitLines]
  | cons c rest ih =>
    by_cases h : c = '\n'
    · simp [splitLines, h]
    · simp only [splitLines, if_neg h]
      cases hs : splitLines rest <;> simp

theorem splitLines_append_newline (cs : List Char) :
    splitLines (cs ++ ['\n']) = splitLines cs ++ [[]] := by
  induction cs with
  | nil => rfl
  | cons c rest ih =>
    by_cases h : c = '\n'
    · simp only [List.cons_append, splitLines, if_pos h, List.append_eq, ih,
        List.nil_append]
    · rw [List.cons_append]
      simp only [splitLines, if_neg h]
      rw [ih]
      cases hs : splitLines rest with
      | nil => exact absurd hs (splitLines_ne_nil rest)
      | cons l ls => simp

theorem get_jsons_from_stream_append (a b : List (List Char)) :
    get_jsons_from_stream (a ++ b) =
      get_jsons_from_stream a ++ get_jsons_from_stream b := by
  rw [get_jsons_from_stream_filterMap, get_jsons_from_stream_filterMap,
    get_jsons_from_stream_filterMap, List.filterMap_append]

/-- C10: an empty line yields no value (`json.loads('')` fails and the
failure is swallowed), so in the gz branch — which splits the decompressed
text on newline, producing a trailing empty chunk when the text ends in a
newline — a trailing newline never changes the values yielded. -/
theorem gz_trailing_newline_spec :
    json_loads ([] : List Char) = none
  ∧ (∀ rest : List (List Char),
      get_jsons_from_stream ([] :: rest) = get_jsons_from_stream rest)
  ∧ (∀ text : List Char,
      get_jsons_from_stream_gz (text ++ ['\n']) = get_jsons_from_stream_gz text) := by
  refine ⟨rfl, fun rest => rfl, fun text => ?_⟩
  unfold get_jsons_from_stream_gz
  rw [splitLines_append_newline, get_jsons_from_stream_append]
  rw [show get_jsons_from_stream [[]] = [] from rfl, List.append_nil]

theorem closedBody_mem_stepRun (lines : List (List Char)) (n : Nat)
    (h : lines.length ≤ n) :
    GenEvent.closedBody ∈ stepRun lines (List.replicate n ConsumerAction.next) := by
  induction lines generalizing n with
  | nil => simp [stepRun]
  | cons line rest ih =>
    have hstep : stepRun (line :: rest) (List.replicate n ConsumerAction.next) =
        match json_loads line with
        | none => stepRun rest (List.replicate n ConsumerAction.next)
        | some v =>
          GenEvent.yielded v ::
            match List.replicate n ConsumerAction.next with
            | [] => []
            | ConsumerAction.next :: as => stepRun rest as
            | ConsumerAction.close :: _ => stepExit rest := rfl
    rw [hstep]
    cases hj : json_loads line with
    | none =>
      exact ih n (by simp at h; omega)
    | some v =>
      have hn : n = (n - 1) + 1 := by simp at h; omega
      rw [hn]
      exact List.mem_cons_of_mem _ (ih (n - 1) (by simp at h; omega))

/-- C8 is a bug in the code: on abandonment before exhaustion, `close()`
raises `GeneratorExit` at the suspended `yield`, the bare `except:` swallows
it, and as soon as a remaining line parses the generator yields again —
Python then raises `RuntimeError` and `body.close()` on line 124 never runs.
Only full exhaustion closes the body. -/
theorem get_jsons_from_object_close_leak :
    runGen ["1".toList, "2".toList] [ConsumerAction.next, ConsumerAction.close]
      = [GenEvent.yielded (Json.num 1 0), GenEvent.runtimeError]
  ∧ GenEvent.closedBody ∉
      runGen ["1".toList, "2".toList] [ConsumerAction.next, ConsumerAction.close]
  ∧ (∀ lines : List (List Char),
      GenEvent.closedBody ∈
        runGen lines (List.replicate (lines.length + 1) ConsumerAction.next)) := by
  refine ⟨rfl, ?_, ?_⟩
  · rw [show runGen ["1".toList, "2".toList] [ConsumerAction.next, ConsumerAction.close]
        = [GenEvent.yielded (Json.num 1 0), GenEvent.runtimeError] from rfl]
    simp
  · intro lines
    have h := closedBody_mem_stepRun lines lines.length (Nat.le_refl _)
    rw [List.replicate_succ]
    exact h

theorem pyInstant_norm (d : PyDateTime) :
    pyInstant (if d.tz = none then utcLocalize d else d) = pyInstant d := by
  obtain ⟨w, tz⟩ := d
  cases tz <;> simp [pyInstant, utcLocalize]

/-- C7: `filter_objects` yields exactly the input entries whose LastModified
lies within `[startDate, endDate]` inclusive, as an order-preserving subset
of the input, with a bound given without a timezone normalized to UTC
(offset 0, same wall clock) before comparison. -/
theorem filter_objects_spec :
    (∀ (objs : List S3ObjectDesc) (s e : PyDateTime) (x : S3ObjectDesc),
      x ∈ filter_objects objs s e ↔
        x ∈ objs ∧ pyInstant s ≤ pyInstant (lastModifiedDT x) ∧
          pyInstant (lastModifiedDT x) ≤ pyInstant e)
  ∧ (∀ (objs : List S3ObjectDesc) (s e : PyDateTime),
      (filter_objects objs s e).Sublist objs)
  ∧ (∀ (objs : List S3ObjectDesc) (w : Int) (e : PyDateTime),
      filter_objects objs { wall := w, tz := none } e =
        filter_objects objs { wall := w, tz := some 0 } e)
  ∧ (∀ (objs : List S3ObjectDesc) (s : PyDateTime) (w : Int),
      filter_objects objs s { wall := w, tz := none } =
        filter_objects objs s { wall := w, tz := some 0 }) := by
  refine ⟨?_, ?_, ?_, ?_⟩
  · intro objs s e x
    unfold filter_objects
    rw [List.mem_filter]
    simp [pyInstant_norm, and_assoc]
  · intro objs s e
    unfold filter_objects
    exact List.filter_sublist _
  · intro objs w e
    rfl
  · intro objs s w
    rfl

/-- Counterexample to C3 as stated: a prefix whose date-like segment matches
the regex but is not a valid calendar date makes the filter raise
(`dateutil` raises `ValueError` on `2021-02-31`), so filtering does not
complete without error for every prefix string input. -/
theorem filter_prefixes_raises_on_invalid_date :
    filter_prefixes ["x/2021-02-31/".toList] 0 99999999 = Except.error () := rfl

/-- C3 (amended): provided every regex-matched date segment among the
prefixes parses as a valid calendar date, `filter_prefixes` completes
without error, silently dropping every prefix that lacks a
`/YYYY-MM-DD/` path segment, and retaining exactly the prefixes whose
matched segment's parsed date lies within `[startDate, endDate]`
inclusive, in input order.  (A prefix whose matched segment is not a valid
calendar date instead raises, per the counterexample.) -/
theorem filter_prefixes_spec (prefixes : List (List Char))
    (start_date end_date : Nat)
    (h : ∀ x ∈ prefixes, segParses x = true) :
    filter_prefixes prefixes start_date end_date =
      Except.ok (prefixes.filter (keepsPfx start_date end_date)) := by
  induction prefixes with
  | nil => rfl
  | cons x rest ih =>
    have hx : segParses x = true := h x (List.mem_cons_self x rest)
    have hrest : ∀ y ∈ rest, segParses y = true :=
      fun y hy => h y (List.mem_cons_of_mem x hy)
    have hstep : filter_prefixes (x :: rest) start_date end_date =
        match lastDateSeg x with
        | none => filter_prefixes rest start_date end_date
        | some seg =>
          match parseYMD seg.1 seg.2.1 seg.2.2 with
          | none => Except.error ()
          | some dte =>
            if start_date ≤ encodeDate dte && encodeDate dte ≤ end_date then
              match filter_prefixes rest start_date end_date with
              | Except.ok xs => Except.ok (x :: xs)
              | Except.error u => Except.error u
            else filter_prefixes rest start_date end_date := rfl
    rw [hstep, List.filter_cons]
    cases hseg : lastDateSeg x with
    | none =>
      have hk : keepsPfx start_date end_date x = false := by
        unfold keepsPfx; rw [hseg]
      rw [hk]
      simp only [Bool.false_eq_true, if_false]
      exact ih hrest
    | some seg =>
      cases hp : parseYMD seg.1 seg.2.1 seg.2.2 with
      | none =>
        exfalso
        have h1 : segParses x = (parseYMD seg.1 seg.2.1 seg.2.2).isSome := by
          unfold segParses; rw [hseg]
        rw [h1, hp] at hx
        simp at hx
      | some dte =>
        have hk : keepsPfx start_date end_date x =
            (start_date ≤ encodeDate dte && encodeDate dte ≤ end_date) := by
          have h1 : keepsPfx start_date end_date x =
              match parseYMD seg.1 seg.2.1 seg.2.2 with
              | none => false
              | some d => start_date ≤ encodeDate d && encodeDate d ≤ end_date := by
            unfold keepsPfx; rw [hseg]
          rw [h1, hp]
        have hgoal : (match parseYMD seg.1 seg.2.1 seg.2.2 with
            | none => (Except.error () : Except Unit (List (List Char)))
            | some d =>
              if start_date ≤ encodeDate d && encodeDate d ≤ end_date then
                match filter_prefixes rest start_date end_date with
                | Except.ok xs => Except.ok (x :: xs)
                | Except.error u => Except.error u
              else filter_prefixes rest start_date end_date)
            = (if start_date ≤ encodeDate dte && encodeDate dte ≤ end_date then
                match filter_prefixes rest start_date end_date with
                | Except.ok xs => Except.ok (x :: xs)
                | Except.error u => Except.error u
              else filter_prefixes rest start_date end_date) := by rw [hp]
        rw [hgoal, ih hrest, hk]
        cases hcond : (start_date ≤ encodeDate dte && encodeDate dte ≤ end_date) with
        | true => simp
        | false => simp

/-- Witness for the amended C3: one dated prefix in range is kept, an
undated prefix is dropped silently, and no error is raised. -/
theorem filter_prefixes_spec_witness :
    filter_prefixes ["realtime/2013-11-27/".toList, "junk".toList] 20130101 20140101
      = Except.ok [("realtime/2013-11-27/".toList)] := by
  rw [filter_prefixes_spec _ _ _ (by decide)]
  rfl

theorem gol_loop_chain {α : Type} (client : Option Nat → ListPage α)
    (pages : List (ListPage α)) :
    ∀ (p : ListPage α) (fuel : Nat),
      chainOK client (p :: pages) → pages.length ≤ fuel →
      gol_loop client p fuel =
        (((p :: pages).map ListPage.contents).flatten,
         ((p :: pages).map ListPage.commonPrefixes).flatten) := by
  induction pages with
  | nil =>
    intro p fuel hchain hlen
    have ht : p.isTruncated = false := hchain
    cases fuel with
    | zero => simp [gol_loop]
    | succ f => simp [gol_loop, ht]
  | cons q rest ih =>
    intro p fuel hchain hlen
    have hch : p.isTruncated = true ∧ client (some p.nextToken) = q ∧
        chainOK client (q :: rest) := hchain
    cases fuel with
    | zero => exact absurd hlen (by simp)
    | succ f =>
      have hg : gol_loop client p (f + 1) =
          if p.isTruncated then
            (p.contents ++ (gol_loop client (client (some p.nextToken)) f).1,
             p.commonPrefixes ++ (gol_loop client (client (some p.nextToken)) f).2)
          else (p.contents, p.commonPrefixes) := rfl
      rw [hg, hch.1, if_pos rfl, hch.2.1,
        ih q f hch.2.2 (by simpa using hlen)]
      simp

/-- C5: `get_object_list` loops issuing the next request with the previous
response's continuation token while the response is truncated, and returns
the concatenation of every page's object entries and every page's common
prefixes. -/
theorem get_object_list_paginates {α : Type} (client : Option Nat → ListPage α)
    (pages : List (ListPage α)) (p : ListPage α) (fuel : Nat)
    (h1 : client none = p) (h2 : chainOK client (p :: pages))
    (h3 : pages.length ≤ fuel) :
    get_object_list client fuel =
      (((p :: pages).map ListPage.contents).flatten,
       ((p :: pages).map ListPage.commonPrefixes).flatten) := by
  unfold get_object_list
  rw [h1]
  exact gol_loop_chain client pages p fuel h2 h3

/-- Witness for C5: the simulated 3-page response (truncated, truncated,
not-truncated) returns the entries of all three pages, with no duplicates
and no omissions. -/
theorem get_object_list_paginates_witness :
    get_object_list client3 2 = ([1, 2, 3, 4, 5], ["a/", "b/"])
  ∧ ([1, 2, 3, 4, 5] : List Nat).Nodup := by
  constructor
  · have hchain : chainOK client3 [page1, page2, page3] :=
      ⟨rfl, rfl, rfl, rfl, rfl⟩
    rw [get_object_list_paginates client3 [page2, page3] page1 2 rfl hchain
      (by decide)]
    rfl
  · decide
